import Mathlib

/-!
Verification of the ChatX client (`src/app.js`): the session/connection/
presence coordination layer.  The JavaScript is shallowly embedded: JSON
values become an inductive `Json`, the connection and DOM side effects become
an explicit `App` state acted on by an `Event` step function, and the browser
timer used for debouncing becomes an explicit pending-task model.
-/

namespace ChatX

/-- JSON values as exchanged on the wire and produced by `JSON.parse`. -/
inductive Json where
  | null
  | bool (b : Bool)
  | num (n : Int)
  | str (s : String)
  | arr (xs : List Json)
  | obj (fields : List (String × Json))

/-- First binding for a key in a JS object literal (our objects carry no
duplicate keys). -/
def lookupField : List (String × Json) → String → Option Json
  | [], _ => none
  | (k', v) :: rest, k => if k' = k then some v else lookupField rest k

/-- `data.k` on a parsed JSON value: `none` models JS `undefined`
(missing property or non-object receiver). -/
def Json.getField (j : Json) (k : String) : Option Json :=
  match j with
  | .obj fields => lookupField fields k
  | _ => none

/-- `data.k === v` for a string literal `v`: `undefined` or a non-string
field compares unequal. -/
def isStrField (j : Json) (k v : String) : Bool :=
  match j.getField k with
  | some (.str s) => s = v
  | _ => false

/-- JS string coercion of a value (as performed by assignment to
`input.value`); arrays are modelled coarsely, they never occur here. -/
def jsDisplay : Json → String
  | .null => "null"
  | .bool true => "true"
  | .bool false => "false"
  | .num n => toString n
  | .str s => s
  | .arr _ => ""
  | .obj _ => "[object Object]"

/-- JS string coercion where `none` is `undefined`. -/
def jsDisplayOpt : Option Json → String
  | none => "undefined"
  | some v => jsDisplay v

/-- `String.prototype.trim()`: strip leading and trailing whitespace. -/
def jsTrim (s : String) : String :=
  String.mk (((s.data.dropWhile Char.isWhitespace).reverse.dropWhile
    Char.isWhitespace).reverse)

/-- The characters of `s.toLowerCase()`. -/
def lowerChars (s : String) : List Char :=
  s.data.map Char.toLower

/-- `haystack.toLowerCase().includes(needle.toLowerCase())`: case-insensitive
substring test. -/
def jsIncludesCI (haystack needle : String) : Bool :=
  decide (lowerChars needle <:+: lowerChars haystack)

example : jsTrim " bob " = "bob" := by decide
example : jsIncludesCI "alice@x.com" "AL" = true := by decide
example : jsIncludesCI "bob@x.com" "AL" = false := by decide

/-- The local identity `me = { email, name }` (`app.js` line 43).  JS `null`
for a missing email is modelled by the empty string — both are falsy in the
guards that test it. -/
structure Identity where
  email : String
  name : String

/-- `{ type: 'join', email: me.email, name: me.name, ts: Date.now() }`
(`app.js` line 61). -/
def joinEnvelope (me : Identity) (now : Nat) : Json :=
  .obj [("type", .str "join"), ("email", .str me.email),
        ("name", .str me.name), ("ts", .num now)]

/-- `{ type: 'message', email: me.email, name: me.name, text, ts: Date.now() }`
(`app.js` line 256). -/
def messageEnvelope (me : Identity) (text : String) (now : Nat) : Json :=
  .obj [("type", .str "message"), ("email", .str me.email),
        ("name", .str me.name), ("text", .str text), ("ts", .num now)]

/-- `{ type: 'search', query: v, from: me.email }` (`app.js` lines 238-242).
The source builds exactly these three fields: the sender is carried in a
field named `from`, and no timestamp field is present. -/
def searchEnvelope (v : String) (meEmail : String) : Json :=
  .obj [("type", .str "search"), ("query", .str v), ("from", .str meEmail)]

/-- The WebSocket `readyState` constants relevant here. -/
inductive ReadyState where
  | CONNECTING
  | OPEN
  | CLOSED
  deriving DecidableEq

/-- One WebSocket connection instance: its `readyState` and the envelopes
sent on it so far, in order. -/
structure ConnState where
  readyState : ReadyState
  sent : List Json

/-- One transcript row produced by `addMessage` (`app.js` lines 45-54);
fields hold the raw JSON values the handler read off the inbound frame. -/
structure TranscriptEntry where
  sender : Option Json
  name : Option Json
  text : Option Json
  ts : Option Json
  meFlag : Bool

/-- The client state the claims are about: the connection (`ws`, `none`
before `connect` runs), the two text inputs, whether the member-search input
is the active element, the `alert` messages raised so far, and the arguments
of the `fetchAndRenderOnline` calls made so far (`none` = called with no
filter argument). -/
structure App where
  ws : Option ConnState
  messageInput : String
  memberSearch : String
  searchFocused : Bool
  alerts : List String
  renders : List (Option String)
  transcript : List TranscriptEntry

/-- `ws && ws.readyState === WebSocket.OPEN` (`app.js` lines 237, 257). -/
def wsOpenB (st : App) : Bool :=
  match st.ws with
  | some c => c.readyState = .OPEN
  | none => false

/-- `ws.send(JSON.stringify(env))`: append the envelope to the connection's
sent list.  Only reached under the `wsOpenB` guard. -/
def wsSend (w : Option ConnState) (env : Json) : Option ConnState :=
  match w with
  | some c => some { c with sent := c.sent ++ [env] }
  | none => none

/-- `addMessage({ from: data.email, name: data.name, text: data.text,
ts: data.ts, meFlag: data.email === me.email })` (`app.js` line 69). -/
def mkTranscriptEntry (me : Identity) (data : Json) : TranscriptEntry :=
  { sender := data.getField "email", name := data.getField "name",
    text := data.getField "text", ts := data.getField "ts",
    meFlag := isStrField data "email" me.email }

/-- The I/O events the handlers registered in `app.js` react to.  `wsMessage`
carries the result of `JSON.parse(ev.data)` (`none` = the parse threw, the
handler catches and logs).  `debounceFire` is the debounce task firing with
the trimmed value it captured at input time.  `typeMessage`/`typeSearch`
model the DOM updating an input's value as the user types. -/
inductive Event where
  | wsOpen (now : Nat)
  | wsMessage (data : Option Json)
  | wsClose
  | wsError
  | typeMessage (s : String)
  | typeSearch (s : String)
  | debounceFire (v : String)
  | composerSubmit (now : Nat)
  | focusSearch
  | blurSearch
  | intervalTick

/-- One step of the event-driven client: the handlers of `app.js` lines
58-80 (open/message/close/error), 235-245 (debounce task body), 248 (focus
refresh), 251-264 (composer submit) and 268-271 (8s interval). -/
def step (me : Identity) (st : App) (e : Event) : App :=
  match e with
  | .wsOpen now =>
      -- the browser moves readyState to OPEN and fires the handler, which
      -- sends the join envelope and refreshes the online list (lines 58-64)
      match st.ws with
      | some c =>
          if c.readyState = .CONNECTING then
            { st with
                ws := some { readyState := .OPEN,
                             sent := c.sent ++ [joinEnvelope me now] },
                renders := st.renders ++ [none] }
          else st
      | none => st
  | .wsMessage data =>
      match data with
      | none => st  -- JSON.parse threw: logged, dropped (line 77)
      | some d =>
          if isStrField d "type" "message" then
            { st with transcript := st.transcript ++ [mkTranscriptEntry me d] }
          else if isStrField d "type" "search" &&
                  !(isStrField d "from" me.email) then
            -- mirror the remote query and re-render (lines 70-75)
            { st with
                memberSearch := jsDisplayOpt (d.getField "query"),
                renders := st.renders ++ [(d.getField "query").map jsDisplay] }
          else st
  | .wsClose =>
      -- the browser moves readyState to CLOSED; the handler only logs
      match st.ws with
      | some c => { st with ws := some { c with readyState := .CLOSED } }
      | none => st
  | .wsError => st  -- handler only logs (line 80)
  | .typeMessage s => { st with messageInput := s }
  | .typeSearch s => { st with memberSearch := s }
  | .debounceFire v =>
      -- lines 236-244: best-effort broadcast, then re-fetch and re-render
      let st1 := if wsOpenB st
        then { st with ws := wsSend st.ws (searchEnvelope v me.email) }
        else st
      { st1 with renders := st1.renders ++ [some v] }
  | .composerSubmit now =>
      -- lines 251-264; note line 263 clears the input on BOTH branches
      if me.email = "" then
        { st with alerts := st.alerts ++ ["Please login first"] }
      else
        let text := jsTrim st.messageInput
        if text = "" then st
        else if wsOpenB st then
          { st with ws := wsSend st.ws (messageEnvelope me text now),
                    messageInput := "" }
        else
          { st with alerts := st.alerts ++ ["Not connected to server"],
                    messageInput := "" }
  | .focusSearch =>
      { st with searchFocused := true,
                renders := st.renders ++ [some (jsTrim st.memberSearch)] }
  | .blurSearch => { st with searchFocused := false }
  | .intervalTick =>
      -- lines 268-271: skipped while the search input is focused
      if st.searchFocused then st
      else { st with renders := st.renders ++ [some (jsTrim st.memberSearch)] }

/-- `connect()` (`app.js` lines 56-81): unconditionally constructs a fresh
WebSocket (readyState CONNECTING, nothing sent yet) and installs the
handlers.  The identity argument is ignored — the source has no guard on
`me.email`.  The remaining fields are the page-load state. -/
def connect (_ : Identity) : App :=
  { ws := some { readyState := .CONNECTING, sent := [] },
    messageInput := "", memberSearch := "", searchFocused := false,
    alerts := [], renders := [], transcript := [] }

/-- Concrete-state fixture: a client state with the given connection and
composer input, all other fields as at page load. -/
def mkState (w : Option ConnState) (input : String) : App :=
  { ws := w, messageInput := input, memberSearch := "",
    searchFocused := false, alerts := [], renders := [], transcript := [] }

/-- Run one connection instance from `connect` through a list of events. -/
def run (me : Identity) (es : List Event) : App :=
  es.foldl (step me) (connect me)

/-- The envelopes sent so far on the current connection. -/
def sentOf (st : App) : List Json :=
  match st.ws with
  | some c => c.sent
  | none => []

/-!
Debounce timing (`app.js` lines 225-246).  `onlineDebounce` holds at most one
pending timer handle.  The input handler captures `v = value.trim()`, calls
`clearTimeout` on any pending task and `setTimeout(..., 180)`, so the pending
task (if any) is always the one scheduled by the latest input.  We model time
explicitly: inputs are `(time, rawValue)` pairs in chronological order, the
pending task is `(fireTime, trimmedValue)`, and a pending task fires iff its
fire time arrives no later than the next input (ties resolved in favour of
the timer; irrelevant under the strict-inequality burst hypothesis).
-/

/-- Process the timed input changes, starting with pending task `pending`,
and return the list of debounce tasks that actually fire, in order. -/
def debounceRun (pending : Option (Nat × String)) :
    List (Nat × String) → List (Nat × String)
  | [] =>
      match pending with
      | some p => [p]
      | none => []
  | (t, v) :: rest =>
      match pending with
      | some (ft, q) =>
          if ft ≤ t then (ft, q) :: debounceRun (some (t + 180, jsTrim v)) rest
          else debounceRun (some (t + 180, jsTrim v)) rest
      | none => debounceRun (some (t + 180, jsTrim v)) rest

/-- The tasks fired by a sequence of input changes with no task initially
pending. -/
def debounceFires (inputs : List (Nat × String)) : List (Nat × String) :=
  debounceRun none inputs

example : debounceFires [(0, "a"), (100, " bob ")] = [(280, "bob")] := by decide
example : debounceFires [(0, "a"), (300, "b")] = [(180, "a"), (480, "b")] := by
  decide

/-!
Presence directory (`app.js` lines 198-229).
-/

/-- The possible outcomes of the `fetch` in `fetchOnline`: the fetch itself
rejecting (network/transport error), or a response with its `ok` flag and the
outcome of `res.json()` (`none` = the body was not parseable JSON, so
`res.json()` rejected). -/
inductive FetchOutcome where
  | fetchError
  | response (ok : Bool) (jsonBody : Option Json)

/-- `fetchOnline` (`app.js` lines 198-205): `return []` on `!res.ok`;
`Array.isArray(data) ? data : []`; the surrounding `try`/`catch` turns any
rejection (transport error or JSON parse failure) into `[]`. -/
def fetchOnline : FetchOutcome → List Json
  | .fetchError => []
  | .response ok jsonBody =>
      if !ok then []
      else
        match jsonBody with
        | none => []
        | some data =>
            match data with
            | .arr xs => xs
            | _ => []

/-- A presence entry as consumed by `renderOnline`: `u.email` / `u.name`
may be absent (`none`) or present. -/
structure PresenceEntry where
  email : Option String
  name : Option String
  deriving DecidableEq

/-- The string actually rendered/matched for an entry's email; an absent
email contributes the empty string. -/
def emailStr (u : PresenceEntry) : String :=
  u.email.getD ""

/-- The predicate of `list.filter` in `renderOnline` (`app.js` line 209):
`!filter || (u.email && u.email.toLowerCase().includes(filter.toLowerCase()))`.
`filter` is `none` when the function is called without a filter argument;
`none` and `some ""` are both falsy.  A missing or empty `u.email` is falsy,
short-circuiting the conjunction to false. -/
def onlinePred (filter : Option String) (u : PresenceEntry) : Bool :=
  !(filter.getD "" ≠ "") ||
    (match u.email with
     | some e => e ≠ "" && jsIncludesCI e (filter.getD "")
     | none => false)

/-- What `renderOnline` leaves in the DOM: either the single
"No matching online members" placeholder row, or one row per kept entry. -/
inductive RenderedList where
  | placeholder
  | rows (entries : List PresenceEntry)

/-- `renderOnline(list, filter)` (`app.js` lines 207-223): filter the
entries, and render the placeholder exactly when the filtered list is
empty. -/
def renderOnline (list : List PresenceEntry) (filter : Option String) :
    RenderedList :=
  let filtered := list.filter (onlinePred filter)
  if filtered.isEmpty then .placeholder else .rows filtered

/-- Modelled from the spec's words, for comparison with `renderOnline`
(the source function): keep exactly the entries whose email contains the
filter case-insensitively as a substring, where an absent filter or an
absent email reads as the empty string; render the placeholder exactly when
nothing is kept. -/
def renderSpec (list : List PresenceEntry) (filter : Option String) :
    RenderedList :=
  let kept := list.filter
    (fun u => decide (lowerChars (filter.getD "") <:+: lowerChars (emailStr u)))
  if kept.isEmpty then .placeholder else .rows kept

/-!
Theorems.
-/

theorem lowerChars_ne_nil {s : String} (h : s ≠ "") : lowerChars s ≠ [] := by
  cases s with
  | mk data =>
      cases data with
      | nil => exact absurd rfl h
      | cons c cs => simp [lowerChars]

theorem onlinePred_eq_spec (filter : Option String) (u : PresenceEntry) :
    onlinePred filter u =
      decide (lowerChars (filter.getD "") <:+: lowerChars (emailStr u)) := by
  by_cases hf : filter.getD "" = ""
  · have hnil : lowerChars "" = [] := rfl
    simp [onlinePred, hf, hnil, List.nil_infix]
  · have hfnil : lowerChars (filter.getD "") ≠ [] := lowerChars_ne_nil hf
    cases hu : u.email with
    | none =>
        have hno : ¬ (lowerChars (filter.getD "") <:+: ([] : List Char)) :=
          fun h => hfnil (List.infix_nil.mp h)
        have hmail : lowerChars (emailStr u) = [] := by
          simp [emailStr, hu, lowerChars]
        simp [onlinePred, hf, hu, hmail, hno]
    | some e =>
        by_cases he : e = ""
        · have hmail : lowerChars (emailStr u) = [] := by
            simp [emailStr, hu, he, lowerChars]
          have hno : ¬ (lowerChars (filter.getD "") <:+: ([] : List Char)) :=
            fun h => hfnil (List.infix_nil.mp h)
          simp [onlinePred, hf, hu, he, hmail, hno]
        · have hmail : emailStr u = e := by simp [emailStr, hu]
          simp [onlinePred, hf, hu, he, jsIncludesCI, hmail]

/-- Claim C7: `renderOnline` keeps exactly the entries whose email contains
the filter case-insensitively as a substring (an absent filter, or an absent
email, reading as the empty string, so an absent or empty filter keeps every
entry), and renders the single "no match" placeholder exactly when the
filtered result is empty — i.e. it coincides with the spec-worded
`renderSpec` on every input. -/
theorem chatx_c7 (list : List PresenceEntry) (filter : Option String) :
    renderOnline list filter = renderSpec list filter := by
  have h : list.filter (onlinePred filter) =
      list.filter (fun u =>
        decide (lowerChars (filter.getD "") <:+: lowerChars (emailStr u))) :=
    List.filter_congr (fun u _ => onlinePred_eq_spec filter u)
  simp only [renderOnline, renderSpec, h]

/-- Claim C8: `fetchOnline` is a total function of the HTTP outcome (never
throws); a transport error or a non-success status yields the empty list,
and a success whose body decodes to a JSON array yields exactly the decoded
entry list. -/
theorem chatx_c8 (o : FetchOutcome) :
    (o = .fetchError → fetchOnline o = []) ∧
    (∀ body, o = .response false body → fetchOnline o = []) ∧
    (∀ xs, o = .response true (some (.arr xs)) → fetchOnline o = xs) := by
  refine ⟨fun h => ?_, fun body h => ?_, fun xs h => ?_⟩ <;> subst h <;> rfl

theorem chatx_c8_witness :
    fetchOnline .fetchError = [] ∧
    fetchOnline (.response false (some (.arr []))) = [] ∧
    fetchOnline (.response true (some (.arr [Json.null]))) = [Json.null] :=
  ⟨(chatx_c8 _).1 rfl, (chatx_c8 _).2.1 _ rfl, (chatx_c8 _).2.2 _ rfl⟩

/-- Claim C9: on a successful response whose body parses as JSON but is not
an array, `fetchOnline` also returns the empty list. -/
theorem chatx_c9 (data : Json) (h : ∀ xs, data ≠ .arr xs) :
    fetchOnline (.response true (some data)) = [] := by
  cases data with
  | arr xs => exact absurd rfl (h xs)
  | null => rfl
  | bool b => rfl
  | num n => rfl
  | str s => rfl
  | obj fields => rfl

theorem chatx_c9_witness :
    fetchOnline (.response true (some (.obj [("email", .str "a@x.com")]))) =
      [] :=
  chatx_c9 (.obj [("email", .str "a@x.com")]) (fun _ h => Json.noConfusion h)

theorem onlinePred_empty_filter (u : PresenceEntry) :
    onlinePred (some "") u = true := by
  simp [onlinePred]

/-- Claim C10: with a non-empty filter string, `renderOnline` drops every
entry whose email is missing or empty (its filter predicate is false, so the
entry appears in no rendered row list), while with an empty filter such an
entry is still shown. -/
theorem chatx_c10 (f : String) (u : PresenceEntry)
    (hf : f ≠ "") (he : u.email = none ∨ u.email = some "") :
    onlinePred (some f) u = false ∧
    (∀ (l : List PresenceEntry) kept,
      renderOnline l (some f) = .rows kept → u ∉ kept) ∧
    onlinePred (some "") u = true ∧
    (∀ l : List PresenceEntry, u ∈ l →
      ∃ kept, renderOnline l (some "") = .rows kept ∧ u ∈ kept) := by
  have hpred : onlinePred (some f) u = false := by
    rcases he with h | h <;> simp [onlinePred, hf, h]
  refine ⟨hpred, ?_, onlinePred_empty_filter u, ?_⟩
  · intro l kept hr hmem
    by_cases hemp : (l.filter (onlinePred (some f))).isEmpty
    · simp [renderOnline, hemp] at hr
    · simp only [renderOnline, hemp, if_false, Bool.false_eq_true] at hr
      cases hr
      have := (List.mem_filter.mp hmem).2
      rw [hpred] at this
      exact Bool.noConfusion this
  · intro l hl
    have hall : l.filter (onlinePred (some "")) = l :=
      List.filter_eq_self.mpr (fun a _ => onlinePred_empty_filter a)
    have hne : ¬ l.isEmpty := by
      cases l with
      | nil => cases hl
      | cons a l => simp
    refine ⟨l, ?_, hl⟩
    simp [renderOnline, hall, hne]

/-- The readyState of the current connection, if any. -/
def wsReady (st : App) : Option ReadyState :=
  st.ws.map (fun c => c.readyState)

/-- An envelope whose `type` field is `"message"` or `"search"` (the only
envelopes the client ever sends after the join). -/
def MsgOrSearch (env : Json) : Prop :=
  env.getField "type" = some (.str "message") ∨
    env.getField "type" = some (.str "search")

/-- A sent-list that starts with the identity's join envelope and continues
with message/search envelopes only. -/
def JoinLed (me : Identity) (l : List Json) : Prop :=
  ∃ now rest, l = joinEnvelope me now :: rest ∧ ∀ env ∈ rest, MsgOrSearch env

/-- The connection-ordering invariant: nothing is sent while connecting, an
open connection has sent its join first, and whatever has been sent is
either nothing or join-led. -/
def ConnInv (me : Identity) (st : App) : Prop :=
  (wsReady st = some .CONNECTING → sentOf st = []) ∧
  (wsReady st = some .OPEN → JoinLed me (sentOf st)) ∧
  (sentOf st = [] ∨ JoinLed me (sentOf st))

theorem joinLed_append (me : Identity) (l : List Json) (env : Json)
    (h : JoinLed me l) (henv : MsgOrSearch env) :
    JoinLed me (l ++ [env]) := by
  obtain ⟨now, rest, rfl, hrest⟩ := h
  refine ⟨now, rest ++ [env], by simp, ?_⟩
  intro x hx
  rcases List.mem_append.mp hx with h | h
  · exact hrest x h
  · rw [List.mem_singleton.mp h]
    exact henv

theorem connInv_of_ws_eq (me : Identity) {st st' : App}
    (hws : st'.ws = st.ws) (h : ConnInv me st) : ConnInv me st' := by
  unfold ConnInv wsReady sentOf at h ⊢
  rw [hws]
  exact h

theorem connInv_connect (me : Identity) : ConnInv me (connect me) := by
  refine ⟨fun _ => rfl, fun h => ?_, Or.inl rfl⟩
  simp [wsReady, connect] at h

theorem connInv_step (me : Identity) (st : App) (e : Event)
    (h : ConnInv me st) : ConnInv me (step me st e) := by
  obtain ⟨h1, h2, h3⟩ := h
  cases e with
  | wsOpen now =>
      cases hw : st.ws with
      | none =>
          exact connInv_of_ws_eq me (by simp [step, hw]) ⟨h1, h2, h3⟩
      | some c =>
          by_cases hr : c.readyState = .CONNECTING
          · have hsent : c.sent = [] := by
              have := h1 (by simp [wsReady, hw, hr])
              simpa [sentOf, hw] using this
            have hstep : step me st (.wsOpen now) =
                { st with
                    ws := some { readyState := .OPEN,
                                 sent := c.sent ++ [joinEnvelope me now] },
                    renders := st.renders ++ [none] } := by
              simp [step, hw, hr]
            rw [hstep]
            have hled : JoinLed me (c.sent ++ [joinEnvelope me now]) := by
              rw [hsent]
              exact ⟨now, [], rfl, by intro x hx; cases hx⟩
            exact ⟨fun hc => by simp [wsReady] at hc,
                   fun _ => by simpa [sentOf] using hled,
                   Or.inr (by simpa [sentOf] using hled)⟩
          · exact connInv_of_ws_eq me (by simp [step, hw, hr]) ⟨h1, h2, h3⟩
  | wsMessage data =>
      cases data with
      | none => exact ⟨h1, h2, h3⟩
      | some d =>
          by_cases hm : isStrField d "type" "message"
          · exact connInv_of_ws_eq me (by simp [step, hm]) ⟨h1, h2, h3⟩
          · by_cases hs : isStrField d "type" "search" &&
                !(isStrField d "from" me.email)
            · exact connInv_of_ws_eq me (by simp [step, hm, hs]) ⟨h1, h2, h3⟩
            · exact connInv_of_ws_eq me (by simp [step, hm, hs]) ⟨h1, h2, h3⟩
  | wsClose =>
      cases hw : st.ws with
      | none => exact connInv_of_ws_eq me (by simp [step, hw]) ⟨h1, h2, h3⟩
      | some c =>
          have hstep : step me st .wsClose =
              { st with ws := some { c with readyState := .CLOSED } } := by
            simp [step, hw]
          rw [hstep]
          refine ⟨fun hc => by simp [wsReady] at hc,
                  fun hc => by simp [wsReady] at hc, ?_⟩
          simpa [sentOf, hw] using h3
  | wsError => exact ⟨h1, h2, h3⟩
  | typeMessage s => exact connInv_of_ws_eq me rfl ⟨h1, h2, h3⟩
  | typeSearch s => exact connInv_of_ws_eq me rfl ⟨h1, h2, h3⟩
  | debounceFire v =>
      by_cases ho : wsOpenB st
      · cases hw : st.ws with
        | none => simp [wsOpenB, hw] at ho
        | some c =>
            have hr : c.readyState = .OPEN := by
              simpa [wsOpenB, hw] using ho
            have hled : JoinLed me c.sent := by
              have := h2 (by simp [wsReady, hw, hr])
              simpa [sentOf, hw] using this
            have hstep : step me st (.debounceFire v) =
                { st with
                    ws := some { c with
                      sent := c.sent ++ [searchEnvelope v me.email] },
                    renders := st.renders ++ [some v] } := by
              simp [step, ho, hw, wsSend]
            rw [hstep]
            have hled' : JoinLed me (c.sent ++ [searchEnvelope v me.email]) :=
              joinLed_append me c.sent _ hled (Or.inr rfl)
            exact ⟨fun hc => by simp [wsReady, hr] at hc,
                   fun _ => by simpa [sentOf] using hled',
                   Or.inr (by simpa [sentOf] using hled')⟩
      · exact connInv_of_ws_eq me (by simp [step, ho]) ⟨h1, h2, h3⟩
  | composerSubmit now =>
      by_cases hme : me.email = ""
      · exact connInv_of_ws_eq me (by simp [step, hme]) ⟨h1, h2, h3⟩
      · by_cases ht : jsTrim st.messageInput = ""
        · exact connInv_of_ws_eq me (by simp [step, hme, ht]) ⟨h1, h2, h3⟩
        · by_cases ho : wsOpenB st
          · cases hw : st.ws with
            | none => simp [wsOpenB, hw] at ho
            | some c =>
                have hr : c.readyState = .OPEN := by
                  simpa [wsOpenB, hw] using ho
                have hled : JoinLed me c.sent := by
                  have := h2 (by simp [wsReady, hw, hr])
                  simpa [sentOf, hw] using this
                have hstep : step me st (.composerSubmit now) =
                    { st with
                        ws := some { c with
                          sent := c.sent ++
                            [messageEnvelope me (jsTrim st.messageInput)
                              now] },
                        messageInput := "" } := by
                  simp [step, hme, ht, ho, hw, wsSend]
                rw [hstep]
                have hled' : JoinLed me (c.sent ++
                    [messageEnvelope me (jsTrim st.messageInput) now]) :=
                  joinLed_append me c.sent _ hled (Or.inl rfl)
                exact ⟨fun hc => by simp [wsReady, hr] at hc,
                       fun _ => by simpa [sentOf] using hled',
                       Or.inr (by simpa [sentOf] using hled')⟩
          · exact connInv_of_ws_eq me (by simp [step, hme, ht, ho])
              ⟨h1, h2, h3⟩
  | focusSearch => exact connInv_of_ws_eq me rfl ⟨h1, h2, h3⟩
  | blurSearch => exact connInv_of_ws_eq me rfl ⟨h1, h2, h3⟩
  | intervalTick =>
      by_cases hf : st.searchFocused
      · exact connInv_of_ws_eq me (by simp [step, hf]) ⟨h1, h2, h3⟩
      · exact connInv_of_ws_eq me (by simp [step, hf]) ⟨h1, h2, h3⟩

theorem connInv_run (me : Identity) (es : List Event) :
    ConnInv me (run me es) := by
  have hfold : ∀ (sts : App), ConnInv me sts →
      ConnInv me (es.foldl (step me) sts) := by
    induction es with
    | nil => exact fun sts h => h
    | cons e es ih => exact fun sts h => ih _ (connInv_step me sts e h)
  exact hfold (connect me) (connInv_connect me)

/-- Claim C1: on every connection instance, whatever trace of events occurs,
either nothing has been sent yet or the sent sequence starts with exactly
one join envelope — of type `"join"`, carrying the current identity's
email — and everything after it is a message or search envelope; in
particular no message or search envelope precedes the join. -/
theorem chatx_c1 (me : Identity) (es : List Event) :
    sentOf (run me es) = [] ∨
    ∃ now rest,
      sentOf (run me es) = joinEnvelope me now :: rest ∧
      (joinEnvelope me now).getField "type" = some (.str "join") ∧
      (joinEnvelope me now).getField "email" = some (.str me.email) ∧
      ∀ env ∈ rest,
        env.getField "type" = some (.str "message") ∨
        env.getField "type" = some (.str "search") := by
  rcases (connInv_run me es).2.2 with h | ⟨now, rest, hsent, hrest⟩
  · exact Or.inl h
  · exact Or.inr ⟨now, rest, hsent, rfl, rfl, hrest⟩

/-- Claim C2, counterexample: the search envelope the debounce task builds
(`app.js` lines 238-242) carries its sender in a field named `from`, has no
`fromEmail` field and no `ts` field — the claimed shape
`{type:"search", query, fromEmail, ts}` is wrong on both counts. -/
theorem chatx_c2_counterexample :
    (searchEnvelope "bo" "a@x.com").getField "from" = some (.str "a@x.com") ∧
    (searchEnvelope "bo" "a@x.com").getField "fromEmail" = none ∧
    (searchEnvelope "bo" "a@x.com").getField "ts" = none :=
  ⟨rfl, rfl, rfl⟩

/-- Claim C2, amended: when the debounce task fires with the connection
open, exactly one envelope is broadcast, of shape
`{type:"search", query, from: identity.email}` — the sender is carried in a
field named `from` (not `fromEmail`) and no timestamp field is present. -/
theorem chatx_c2 (me : Identity) (st : App) (q : String)
    (h : wsOpenB st = true) :
    ∃ env,
      sentOf (step me st (.debounceFire q)) = sentOf st ++ [env] ∧
      env.getField "type" = some (.str "search") ∧
      env.getField "query" = some (.str q) ∧
      env.getField "from" = some (.str me.email) ∧
      env.getField "fromEmail" = none ∧
      env.getField "ts" = none := by
  refine ⟨searchEnvelope q me.email, ?_, rfl, rfl, rfl, rfl, rfl⟩
  cases hw : st.ws with
  | none => simp [wsOpenB, hw] at h
  | some c => simp [step, h, wsSend, sentOf, hw]

theorem chatx_c2_witness :
    ∃ env,
      sentOf (step ⟨"a@x.com", "A"⟩ (mkState (some ⟨.OPEN, []⟩) "")
          (.debounceFire "bo")) =
        sentOf (mkState (some ⟨.OPEN, []⟩) "") ++ [env] ∧
      env.getField "type" = some (.str "search") ∧
      env.getField "query" = some (.str "bo") ∧
      env.getField "from" = some (.str "a@x.com") ∧
      env.getField "fromEmail" = none ∧
      env.getField "ts" = none :=
  chatx_c2 ⟨"a@x.com", "A"⟩ (mkState (some ⟨.OPEN, []⟩) "") "bo" rfl

/-- Claim C3, counterexample: `connect` has no guard on the identity's
email — called with an empty email it still constructs a connection
(readyState CONNECTING), and on reaching open the join envelope is sent,
so "no connection is opened and no envelope is sent" fails. -/
theorem chatx_c3_counterexample :
    (connect ⟨"", ""⟩).ws =
      some { readyState := .CONNECTING, sent := [] } ∧
    sentOf (step ⟨"", ""⟩ (connect ⟨"", ""⟩) (.wsOpen 0)) =
      [joinEnvelope ⟨"", ""⟩ 0] ∧
    (sentOf (step ⟨"", ""⟩ (connect ⟨"", ""⟩) (.wsOpen 0))).length = 1 :=
  ⟨rfl, rfl, rfl⟩

/-- Claim C3, amended: `connect` opens a connection unconditionally — there
is no email guard — and on reaching open it sends the join envelope carrying
whatever email the identity has, including an empty or absent one. -/
theorem chatx_c3 (me : Identity) (now : Nat) :
    (connect me).ws = some { readyState := .CONNECTING, sent := [] } ∧
    sentOf (step me (connect me) (.wsOpen now)) = [joinEnvelope me now] ∧
    (joinEnvelope me now).getField "email" = some (.str me.email) :=
  ⟨rfl, rfl, rfl⟩

/-- Claim C4, counterexample: submitting the non-empty text "hi" with an
authenticated identity while the connection is not open reports the
delivery failure but CLEARS the message input (`app.js` line 263 runs on
both branches), so "the input is left populated" fails. -/
theorem chatx_c4_counterexample :
    (step ⟨"a@x.com", "A"⟩ (mkState (some ⟨.CONNECTING, []⟩) "hi")
        (.composerSubmit 0)).messageInput = "" ∧
    (step ⟨"a@x.com", "A"⟩ (mkState (some ⟨.CONNECTING, []⟩) "hi")
        (.composerSubmit 0)).alerts = ["Not connected to server"] ∧
    ("hi" : String) ≠ "" :=
  ⟨rfl, rfl, by decide⟩

/-- Claim C4, amended: for every non-empty trimmed message text submitted
with a non-empty identity email while the connection is not open, the
composer reports a delivery failure, sends nothing, and clears the message
input (it is NOT left populated). -/
theorem chatx_c4 (me : Identity) (st : App) (now : Nat)
    (hme : me.email ≠ "") (htext : jsTrim st.messageInput ≠ "")
    (hconn : wsOpenB st = false) :
    (step me st (.composerSubmit now)).alerts =
      st.alerts ++ ["Not connected to server"] ∧
    (step me st (.composerSubmit now)).messageInput = "" ∧
    sentOf (step me st (.composerSubmit now)) = sentOf st := by
  simp [step, hme, htext, hconn, sentOf]

theorem chatx_c4_witness :
    (step ⟨"b@x.com", "B"⟩ (mkState none " hey ")
        (.composerSubmit 7)).alerts =
      (mkState none " hey ").alerts ++ ["Not connected to server"] ∧
    (step ⟨"b@x.com", "B"⟩ (mkState none " hey ")
        (.composerSubmit 7)).messageInput = "" ∧
    sentOf (step ⟨"b@x.com", "B"⟩ (mkState none " hey ")
        (.composerSubmit 7)) = sentOf (mkState none " hey ") :=
  chatx_c4 ⟨"b@x.com", "B"⟩ (mkState none " hey ") 7 (by decide) (by decide)
    rfl

/-- Claim C5: an inbound search envelope whose `from` field equals the local
identity's email leaves the whole client state unchanged (no mirror of the
query, no re-render); one whose sender differs mirrors the remote query into
the local search field and re-renders presence filtered by it. -/
theorem chatx_c5 (me : Identity) (st : App) (d : Json) (f q : String)
    (hty : d.getField "type" = some (.str "search"))
    (hfrom : d.getField "from" = some (.str f))
    (hq : d.getField "query" = some (.str q)) :
    (f = me.email → step me st (.wsMessage (some d)) = st) ∧
    (f ≠ me.email →
      step me st (.wsMessage (some d)) =
        { st with memberSearch := q,
                  renders := st.renders ++ [some q] }) := by
  constructor
  · intro h
    subst h
    simp [step, isStrField, hty, hfrom]
  · intro h
    simp [step, isStrField, hty, hfrom, hq, jsDisplayOpt, jsDisplay, h]

theorem chatx_c5_witness :
    step ⟨"a@x.com", "A"⟩ (connect ⟨"a@x.com", "A"⟩)
        (.wsMessage (some (.obj [("type", .str "search"),
          ("query", .str "bo"), ("from", .str "a@x.com")]))) =
      connect ⟨"a@x.com", "A"⟩ ∧
    step ⟨"a@x.com", "A"⟩ (connect ⟨"a@x.com", "A"⟩)
        (.wsMessage (some (.obj [("type", .str "search"),
          ("query", .str "bo"), ("from", .str "b@x.com")]))) =
      { connect ⟨"a@x.com", "A"⟩ with
          memberSearch := "bo",
          renders := (connect ⟨"a@x.com", "A"⟩).renders ++ [some "bo"] } :=
  ⟨(chatx_c5 ⟨"a@x.com", "A"⟩ (connect ⟨"a@x.com", "A"⟩)
      (.obj [("type", .str "search"), ("query", .str "bo"),
        ("from", .str "a@x.com")]) "a@x.com" "bo" rfl rfl rfl).1 rfl,
   (chatx_c5 ⟨"a@x.com", "A"⟩ (connect ⟨"a@x.com", "A"⟩)
      (.obj [("type", .str "search"), ("query", .str "bo"),
        ("from", .str "b@x.com")]) "b@x.com" "bo" rfl rfl rfl).2 (by decide)⟩

theorem debounceRun_cancel (ft : Nat) (q : String) (t : Nat) (v : String)
    (rest : List (Nat × String)) (h : t < ft) :
    debounceRun (some (ft, q)) ((t, v) :: rest) =
      debounceRun none ((t, v) :: rest) := by
  have hle : ¬ ft ≤ t := by omega
  simp [debounceRun, hle]

theorem debounceRun_burst (init : List (Nat × String)) (tn : Nat)
    (vn : String) (h : ∀ p ∈ init, p.1 ≤ tn ∧ tn < p.1 + 180) :
    debounceFires (init ++ [(tn, vn)]) = [(tn + 180, jsTrim vn)] := by
  induction init with
  | nil => simp [debounceFires, debounceRun]
  | cons p init ih =>
      obtain ⟨t, v⟩ := p
      have h1 := h (t, v) (by simp)
      cases init with
      | nil =>
          have hle : ¬ t + 180 ≤ tn := by omega
          simp [debounceFires, debounceRun, hle]
      | cons p2 init2 =>
          obtain ⟨t2, v2⟩ := p2
          have h2 := h (t2, v2) (by simp)
          have hlt : t2 < t + 180 := by omega
          have hstep : debounceFires (((t, v) :: (t2, v2) :: init2)
              ++ [(tn, vn)]) =
              debounceRun (some (t + 180, jsTrim v))
                ((t2, v2) :: (init2 ++ [(tn, vn)])) := by
            simp [debounceFires, debounceRun]
          rw [hstep, debounceRun_cancel _ _ _ _ _ hlt]
          exact ih (fun p hp => h p (List.mem_cons_of_mem _ hp))

/-- Claim C6: a burst of input changes within a window shorter than 180ms
fires exactly one debounce task, 180ms after the last change (hence at least
180ms after it), carrying the last change's (trimmed) query; when the task
fires with the connection open, exactly one search envelope carrying that
query is broadcast. -/
theorem chatx_c6 (init : List (Nat × String)) (tn : Nat) (vn : String)
    (hburst : ∀ p ∈ init, p.1 ≤ tn ∧ tn < p.1 + 180) :
    debounceFires (init ++ [(tn, vn)]) = [(tn + 180, jsTrim vn)] ∧
    tn + 180 - tn ≥ 180 ∧
    ∀ (me : Identity) (st : App), wsOpenB st = true →
      sentOf (step me st (.debounceFire (jsTrim vn))) =
        sentOf st ++ [searchEnvelope (jsTrim vn) me.email] := by
  refine ⟨debounceRun_burst init tn vn hburst, by omega, ?_⟩
  intro me st h
  cases hw : st.ws with
  | none => simp [wsOpenB, hw] at h
  | some c => simp [step, h, wsSend, sentOf, hw]

theorem chatx_c6_witness :
    debounceFires [(0, "a"), (40, "al"), (80, "ali"), (100, " bob ")] =
      [(280, "bob")] ∧
    sentOf (step ⟨"a@x.com", "A"⟩ (mkState (some ⟨.OPEN, []⟩) "")
        (.debounceFire (jsTrim " bob "))) =
      sentOf (mkState (some ⟨.OPEN, []⟩) "") ++
        [searchEnvelope (jsTrim " bob ") "a@x.com"] := by
  have h := chatx_c6 [(0, "a"), (40, "al"), (80, "ali")] 100 " bob "
    (by decide)
  refine ⟨?_, ?_⟩
  · rw [show ([(0, "a"), (40, "al"), (80, "ali"), (100, " bob ")] :
        List (Nat × String)) =
        [(0, "a"), (40, "al"), (80, "ali")] ++ [(100, " bob ")] from rfl, h.1]
    decide
  · exact h.2.2 ⟨"a@x.com", "A"⟩ (mkState (some ⟨.OPEN, []⟩) "") rfl

theorem chatx_c10_witness :
    onlinePred (some "x") ⟨none, none⟩ = false ∧
    onlinePred (some "") ⟨none, none⟩ = true ∧
    ∃ kept, renderOnline [⟨none, none⟩] (some "") = .rows kept ∧
      (⟨none, none⟩ : PresenceEntry) ∈ kept := by
  have h := chatx_c10 "x" ⟨none, none⟩ (by decide) (Or.inl rfl)
  exact ⟨h.1, h.2.2.1, h.2.2.2 [⟨none, none⟩] (List.mem_singleton_self _)⟩

end ChatX
